import Mathlib

/-!
Verification of the `amqclient` consumer (`consumer.go`) against its
natural-language specification.

The Go file defines three cooperating pieces:

* `NewConsumer` — constructs the `Consumer` record (configuration fields,
  a fresh unbuffered `sendChan`, a fresh open `quit` channel, a cancellable
  context) and starts the two tasks.
* `redialConsumer` — the link supervisor: a loop that offers a hand-off
  slot, dials the broker, opens a channel, declares the exchange and the
  queue, binds them, and hands the finished client over; every failure
  makes the goroutine return (closing the hand-off channels via defers).
* `Consumer.handle` — the delivery pump: acquires a client, starts
  `Consume`, then races deliveries against the `quit` channel, acking each
  delivery before forwarding it on `sendChan`.

The embedding below models each piece as an explicit step function over a
small state type, with the outcomes of external calls (dial results, the
broker delivery stream, the Go `select` scheduler choice) supplied as an
input event list.  The action lists record the externally observable calls
the Go code makes, in program order.
-/

/-- Configuration fields of the Go `Consumer` struct: broker URI, optional
TLS material (modelled by an `Option`, mirroring the nullable
`*tls.Config`), exchange name and kind, queue, routing key and consumer
tag.  All are fixed at construction. -/
structure Consumer where
  amqpURI : String
  tls : Option Unit
  exchange : String
  exchangeType : String
  queue : String
  routingKey : String
  ctag : String
deriving DecidableEq

/-- The `amqp.Config` value built in `redialConsumer` (lines 133-141):
heartbeat period, dial timeout (both in seconds) and the TLS client
configuration, set only when the consumer has TLS material. -/
structure AmqpConfig where
  heartbeat : Nat
  dialTimeout : Nat
  tlsClientConfig : Option Unit
deriving DecidableEq

/-- Embedding of lines 133-141 of `consumer.go`: the config starts with a
10-second heartbeat and a 10-second dial timeout, and `TLSClientConfig`
is assigned exactly when `con.tls != nil`. -/
def mkDialConfig (con : Consumer) : AmqpConfig :=
  let cfg : AmqpConfig := { heartbeat := 10, dialTimeout := 10, tlsClientConfig := none }
  match con.tls with
  | some t => { cfg with tlsClientConfig := some t }
  | none => cfg

/-- Argument record of the broker library's `Channel.Consume` call. -/
structure ConsumeArgs where
  queue : String
  consumerTag : String
  autoAck : Bool
  exclusive : Bool
  noLocal : Bool
  noWait : Bool
deriving DecidableEq

/-- Embedding of the `Consume` call in `Consumer.handle` (lines 71-79):
`Consume(c.queue, c.ctag, true, false, false, false, nil)`.  The third
argument — `autoAck` — is literally `true` in the source. -/
def handleConsume (con : Consumer) : ConsumeArgs :=
  { queue := con.queue
    consumerTag := con.ctag
    autoAck := true
    exclusive := false
    noLocal := false
    noWait := false }

/-- A Go channel reduced to the one bit that matters for `close`: whether
it has already been closed. -/
structure GoChannel where
  closed : Bool
deriving DecidableEq

/-- Go's `close` builtin on a channel: closing an already-closed channel
panics with "close of closed channel"; otherwise the channel becomes
closed. -/
def closeChan (ch : GoChannel) : Except String GoChannel :=
  if ch.closed then Except.error "close of closed channel"
  else Except.ok { closed := true }

/-- The shutdown-relevant state of a `Consumer`: its `quit` channel and
whether `cancel` has been invoked on its context. -/
structure ConsumerCtl where
  quit : GoChannel
  cancelled : Bool
deriving DecidableEq

/-- Embedding of `Consumer.Shutdown` (lines 52-56): log, `close(c.quit)`,
then `c.cancel()`.  A panic of `close` is surfaced as `Except.error`. -/
def Shutdown (c : ConsumerCtl) : Except String ConsumerCtl :=
  match closeChan c.quit with
  | Except.error e => Except.error e
  | Except.ok q => Except.ok { quit := q, cancelled := true }

/-- The control state `NewConsumer` (lines 31-49) hands to the two tasks:
the `quit` channel is freshly made (open) and the context not yet
cancelled. -/
def NewConsumer : ConsumerCtl :=
  { quit := { closed := false }, cancelled := false }

/-! ### The link supervisor `redialConsumer`

One loop iteration of the goroutine in `redialConsumer` (lines 118-203)
is driven by the outcome of its external calls; the `ROutcome` type lists
the points at which an iteration can stop, and `redialConsumerIter`
replays the calls the Go code performs up to that point, in order. -/

/-- Outcome of one iteration of the `redialConsumer` loop.  `bindFail`,
`cancelledAtDeliver` and `handedOff` carry the message and consumer
counts returned by the successful `QueueDeclare`. -/
inductive ROutcome where
  | cancelledAtOffer : ROutcome
  | dialFail : ROutcome
  | channelFail : ROutcome
  | exchangeFail : ROutcome
  | queueFail : ROutcome
  | bindFail : Nat → Nat → ROutcome
  | cancelledAtDeliver : Nat → Nat → ROutcome
  | handedOff : Nat → Nat → ROutcome
deriving DecidableEq

/-- Externally observable actions of the supervisor goroutine, in program
order: offering the hand-off slot, the broker-library calls with the
argument values the Go code passes, delivering the built client through
the rendezvous slot, and the deferred closing of the hand-off channels on
goroutine exit. -/
inductive SupAction where
  | offer : SupAction
  | dial : AmqpConfig → String → SupAction
  | openChannel : SupAction
  | exchangeDeclare : String → String → Bool → Bool → Bool → Bool → SupAction
  | queueDeclare : String → Bool → Bool → Bool → Bool → SupAction
  | logQueueState : Nat → Nat → String → SupAction
  | queueBind : String → String → String → Bool → SupAction
  | deliver : SupAction
  | closeHandoff : SupAction
deriving DecidableEq

/-- One iteration of the `redialConsumer` loop (lines 118-203): the list
of actions performed before the iteration's outcome, and whether the loop
continues (`true` only when the client was handed off).  Argument values
follow the source: `ExchangeDeclare(exchange, exchangeType, true, false,
false, false, nil)`, `QueueDeclare(queue, true, false, false, false,
nil)`, `QueueBind(queue, routingKey, exchange, false, nil)`. -/
def redialConsumerIter (con : Consumer) : ROutcome → List SupAction × Bool
  | ROutcome.cancelledAtOffer => ([], false)
  | ROutcome.dialFail =>
      ([SupAction.offer, SupAction.dial (mkDialConfig con) con.amqpURI], false)
  | ROutcome.channelFail =>
      ([SupAction.offer, SupAction.dial (mkDialConfig con) con.amqpURI,
        SupAction.openChannel], false)
  | ROutcome.exchangeFail =>
      ([SupAction.offer, SupAction.dial (mkDialConfig con) con.amqpURI,
        SupAction.openChannel,
        SupAction.exchangeDeclare con.exchange con.exchangeType true false false false],
       false)
  | ROutcome.queueFail =>
      ([SupAction.offer, SupAction.dial (mkDialConfig con) con.amqpURI,
        SupAction.openChannel,
        SupAction.exchangeDeclare con.exchange con.exchangeType true false false false,
        SupAction.queueDeclare con.queue true false false false], false)
  | ROutcome.bindFail m c =>
      ([SupAction.offer, SupAction.dial (mkDialConfig con) con.amqpURI,
        SupAction.openChannel,
        SupAction.exchangeDeclare con.exchange con.exchangeType true false false false,
        SupAction.queueDeclare con.queue true false false false,
        SupAction.logQueueState m c con.routingKey,
        SupAction.queueBind con.queue con.routingKey con.exchange false], false)
  | ROutcome.cancelledAtDeliver m c =>
      ([SupAction.offer, SupAction.dial (mkDialConfig con) con.amqpURI,
        SupAction.openChannel,
        SupAction.exchangeDeclare con.exchange con.exchangeType true false false false,
        SupAction.queueDeclare con.queue true false false false,
        SupAction.logQueueState m c con.routingKey,
        SupAction.queueBind con.queue con.routingKey con.exchange false], false)
  | ROutcome.handedOff m c =>
      ([SupAction.offer, SupAction.dial (mkDialConfig con) con.amqpURI,
        SupAction.openChannel,
        SupAction.exchangeDeclare con.exchange con.exchangeType true false false false,
        SupAction.queueDeclare con.queue true false false false,
        SupAction.logQueueState m c con.routingKey,
        SupAction.queueBind con.queue con.routingKey con.exchange false,
        SupAction.deliver], true)

/-- The supervisor goroutine run on a list of iteration outcomes: it
replays iterations while they hand off, and at the first iteration that
does not, performs its actions, closes the hand-off channels (the two
deferred `close` calls) and stops — any later outcomes are unreachable
and are ignored.  An exhausted list means the goroutine is still
running. -/
def redialConsumer (con : Consumer) : List ROutcome → List SupAction
  | [] => []
  | o :: os =>
      let step := redialConsumerIter con o
      if step.2 then step.1 ++ redialConsumer con os
      else step.1 ++ [SupAction.closeHandoff]

/-- Outcomes the spec classifies as supervisor step failures: transport
dial, channel open, exchange declaration, queue declaration, queue
binding.  Context cancellations are not failures. -/
def isFatalStep : ROutcome → Bool
  | ROutcome.dialFail => true
  | ROutcome.channelFail => true
  | ROutcome.exchangeFail => true
  | ROutcome.queueFail => true
  | ROutcome.bindFail _ _ => true
  | ROutcome.cancelledAtOffer => false
  | ROutcome.cancelledAtDeliver _ _ => false
  | ROutcome.handedOff _ _ => false

/-- Outcomes where the iteration handed its client off and the loop
continues. -/
def isHandedOff : ROutcome → Bool
  | ROutcome.handedOff _ _ => true
  | _ => false

/-- Scanner over the supervisor's action trace: `noSecondDial b acts` is
`true` when the trace never starts building a second client (a `dial`)
while one is already built but not yet delivered; `b` records whether a
build is currently pending. -/
def noSecondDial (b : Bool) : List SupAction → Bool
  | [] => true
  | a :: rest =>
      match a with
      | SupAction.dial _ _ => !b && noSecondDial true rest
      | SupAction.deliver => noSecondDial false rest
      | _ => noSecondDial b rest

/-- C1: the `Consume` call in `Consumer.handle` passes `autoAck = true`
(line 74 of the source), for every configuration.  The spec requires
manual-ack mode (`autoAck` suppressed), and the pump's own per-delivery
`d.Ack(false)` calls presuppose it, so the literal `true` is a slip in
the code. -/
theorem handleConsume_autoAck_is_true (con : Consumer) :
    (handleConsume con).autoAck = true := rfl

/-- Auxiliary: `mkDialConfig` always records heartbeat 10, dial timeout
10, and the consumer's TLS material verbatim. -/
theorem mkDialConfig_eq (con : Consumer) :
    mkDialConfig con =
      { heartbeat := 10, dialTimeout := 10, tlsClientConfig := con.tls } := by
  cases h : con.tls <;> simp [mkDialConfig, h]

/-- C9: a successful supervisor iteration performs, in order: offer the
hand-off slot; dial the broker URI with 10-unit timeout and 10-unit
heartbeat, applying TLS configuration exactly when present; open a
channel; declare the exchange durable, non-auto-delete, non-internal;
declare the queue durable, non-auto-delete, non-exclusive, logging its
message/consumer counts; bind queue to exchange under the routing key;
then deliver the client through the rendezvous slot. -/
theorem redialConsumerIter_order (con : Consumer) (m c : Nat) :
    redialConsumerIter con (ROutcome.handedOff m c) =
      ([SupAction.offer,
        SupAction.dial
          { heartbeat := 10, dialTimeout := 10, tlsClientConfig := con.tls }
          con.amqpURI,
        SupAction.openChannel,
        SupAction.exchangeDeclare con.exchange con.exchangeType true false false false,
        SupAction.queueDeclare con.queue true false false false,
        SupAction.logQueueState m c con.routingKey,
        SupAction.queueBind con.queue con.routingKey con.exchange false,
        SupAction.deliver], true) := by
  simp [redialConsumerIter, mkDialConfig_eq]

/-- C10: `Shutdown` is not idempotent.  A first successful call closes
the `quit` channel, so a second call executes `close` on an
already-closed channel and panics. -/
theorem Shutdown_second_call_panics (c c2 : ConsumerCtl)
    (h : Shutdown c = Except.ok c2) :
    Shutdown c2 = Except.error "close of closed channel" := by
  unfold Shutdown closeChan at h ⊢
  by_cases hc : c.quit.closed
  · simp [hc] at h
  · simp [hc] at h
    simp [h.symm]

/-- Witness for C10: from the freshly constructed control state, the
first `Shutdown` succeeds and the second panics. -/
theorem Shutdown_second_call_panics_witness :
    Shutdown { quit := { closed := true }, cancelled := true } =
      Except.error "close of closed channel" :=
  Shutdown_second_call_panics NewConsumer
    { quit := { closed := true }, cancelled := true } rfl

/-! ### The delivery pump `Consumer.handle`

`Consumer.handle` (lines 58-108) is an event loop over the pump's state:
the current client (`c.client`, a nullable pointer, here `Option Nat`
identifying the link), whether `close(c.quit)` has happened, whether
`close(c.sendChan)` has happened, and whether the loop has returned.
Each loop step is driven by one external event: the result of the
blocking reads on `clientChanChan`/`clientChan` plus the `Consume` call,
or the branch of the `select` the Go scheduler picks together with the
data it received. -/

/-- State of the delivery pump. -/
structure PumpState where
  client : Option Nat
  quitReq : Bool
  sendClosed : Bool
  halted : Bool
deriving DecidableEq

/-- One external event driving a step of `Consumer.handle`:

* `shutdown` — some other goroutine runs `Shutdown`, closing `quit`;
* `acquireClosed` — the read of `clientChanChan` reports the channel
  closed (`!ok`, line 64);
* `acquire id ok` — a client `id` arrives through the hand-off and the
  subsequent `Consume` call succeeds (`ok = true`) or fails;
* `deliver d ackOk` — the `select` picks the delivery branch with a live
  stream; `d.Ack(false)` returns success iff `ackOk`;
* `streamClosed` — the `select` picks the delivery branch and the
  deliveries channel reports closed;
* `pickQuit` — the `select` picks the `quit` branch (possible only once
  `quit` is closed). -/
inductive PEvent where
  | shutdown : PEvent
  | acquireClosed : PEvent
  | acquire : Nat → Bool → PEvent
  | deliver : Nat → Bool → PEvent
  | streamClosed : PEvent
  | pickQuit : PEvent
deriving DecidableEq

/-- Externally observable actions of the pump, in program order:
acknowledging delivery `d` on link `l` with the call's result, forwarding
`d` on `sendChan`, `client.close()` on link `l`, and `close(sendChan)`. -/
inductive PAction where
  | ack : Nat → Nat → Bool → PAction
  | forward : Nat → PAction
  | closeLink : Nat → PAction
  | closeSend : PAction
deriving DecidableEq

/-- One step of the `Consumer.handle` loop (lines 62-107), returning the
new state and the actions performed:

* `shutdown` marks `quit` closed (an external `Shutdown` call);
* `acquireClosed` logs and returns (line 67) — note: no `close(sendChan)`;
* `acquire id true` stores the client and enters consuming;
* `acquire id false` (`Consume` failed, lines 80-85) closes the client
  and stays without one;
* `deliver d true` acks then forwards (lines 96-101);
* `deliver d false` (ack failed, lines 96-99) closes the client and
  drops it;
* `streamClosed` (lines 90-94) closes the client and drops it;
* `pickQuit` (lines 103-105) closes `sendChan` and returns. -/
def handleStep (s : PumpState) : PEvent → PumpState × List PAction
  | PEvent.shutdown => ({ s with quitReq := true }, [])
  | PEvent.acquireClosed => ({ s with halted := true }, [])
  | PEvent.acquire id ok =>
      if ok then ({ s with client := some id }, [])
      else (s, [PAction.closeLink id])
  | PEvent.deliver d ackOk =>
      match s.client with
      | some l =>
          if ackOk then (s, [PAction.ack l d true, PAction.forward d])
          else ({ s with client := none },
                [PAction.ack l d false, PAction.closeLink l])
      | none => (s, [])
  | PEvent.streamClosed =>
      match s.client with
      | some l => ({ s with client := none }, [PAction.closeLink l])
      | none => (s, [])
  | PEvent.pickQuit =>
      ({ s with sendClosed := true, halted := true }, [PAction.closeSend])

/-- Whether an event can actually occur in a given pump state: the
acquire events require the pump to be blocked on the hand-off (no client,
not returned); the `select` events require a held client; the `quit`
branch of the `select` is ready only once `quit` has been closed; a
`Shutdown` call can happen at any time but at most once (a second call
panics, see `Shutdown_second_call_panics`). -/
def eventOkB (s : PumpState) : PEvent → Bool
  | PEvent.shutdown => !s.quitReq
  | PEvent.acquireClosed => !s.halted && s.client.isNone
  | PEvent.acquire _ _ => !s.halted && s.client.isNone
  | PEvent.deliver _ _ => !s.halted && s.client.isSome
  | PEvent.streamClosed => !s.halted && s.client.isSome
  | PEvent.pickQuit => !s.halted && s.client.isSome && s.quitReq

/-- A list of events is a valid pump trace from `s` when each event can
occur in the state reached so far. -/
def validTraceB (s : PumpState) : List PEvent → Bool
  | [] => true
  | e :: es => eventOkB s e && validTraceB (handleStep s e).1 es

/-- Running the pump over a trace: final state and concatenated
actions. -/
def handleRun (s : PumpState) : List PEvent → PumpState × List PAction
  | [] => (s, [])
  | e :: es =>
      let step := handleStep s e
      let rest := handleRun step.1 es
      (rest.1, step.2 ++ rest.2)

/-- Pump state right after `NewConsumer`: no client, `quit` open,
`sendChan` open, loop running. -/
def pumpInit : PumpState :=
  { client := none, quitReq := false, sendClosed := false, halted := false }

/-- Number of links the pump holds: `c.client` is a single nullable
field, so this is 0 or 1. -/
def pumpHeldLinks (s : PumpState) : Nat :=
  if s.client.isSome then 1 else 0

/-- Invariant: `sendChan` is only ever closed together with the loop
returning (the `pickQuit` branch sets both), so `sendClosed` implies
`halted`, and every step preserves this. -/
theorem handleStep_sendClosed_halted (s : PumpState) (e : PEvent)
    (h : s.sendClosed = true → s.halted = true) :
    (handleStep s e).1.sendClosed = true → (handleStep s e).1.halted = true := by
  cases e <;> simp [handleStep] at * <;> try exact h
  case acquire id ok =>
    cases ok <;> simp <;> exact h
  case deliver d ackOk =>
    cases hc : s.client <;> cases ackOk <;> simp [hc] <;> exact h
  case streamClosed =>
    cases hc : s.client <;> simp [hc] <;> exact h

/-- A halted pump stays halted, keeps `sendChan` as it is, and performs
no further action, on any valid trace (the only event still possible is
an external `Shutdown` call, which touches only `quit`). -/
theorem handleRun_halted (tr : List PEvent) :
    ∀ s : PumpState, s.halted = true → validTraceB s tr = true →
    (handleRun s tr).1.halted = true ∧
    (handleRun s tr).1.sendClosed = s.sendClosed ∧
    (handleRun s tr).2 = [] := by
  induction tr with
  | nil => intro s hs _; exact ⟨hs, rfl, rfl⟩
  | cons e es ih =>
    intro s hs hv
    simp [validTraceB] at hv
    obtain ⟨hok, hv2⟩ := hv
    cases e <;> simp [eventOkB, hs] at hok
    case shutdown =>
      have := ih { s with quitReq := true } (by simpa using hs) (by simpa [handleStep] using hv2)
      simpa [handleRun, handleStep] using this

/-- Running the pump over a concatenated trace splits into the two
runs. -/
theorem handleRun_append (t1 t2 : List PEvent) :
    ∀ s : PumpState,
    handleRun s (t1 ++ t2) =
      ((handleRun (handleRun s t1).1 t2).1,
       (handleRun s t1).2 ++ (handleRun (handleRun s t1).1 t2).2) := by
  induction t1 with
  | nil => intro s; simp [handleRun]
  | cons e es ih => intro s; simp [handleRun, ih]

/-- Validity of a concatenated trace splits into validity of the parts. -/
theorem validTraceB_append (t1 t2 : List PEvent) :
    ∀ s : PumpState,
    validTraceB s (t1 ++ t2) =
      (validTraceB s t1 && validTraceB (handleRun s t1).1 t2) := by
  induction t1 with
  | nil => intro s; simp [validTraceB, handleRun]
  | cons e es ih => intro s; simp [validTraceB, handleRun, ih, Bool.and_assoc]

/-- The `sendClosed → halted` invariant propagates along any run. -/
theorem handleRun_sendClosed_halted (tr : List PEvent) :
    ∀ s : PumpState, (s.sendClosed = true → s.halted = true) →
    ((handleRun s tr).1.sendClosed = true → (handleRun s tr).1.halted = true) := by
  induction tr with
  | nil => intro s h; simpa [handleRun] using h
  | cons e es ih =>
    intro s h
    simpa [handleRun] using ih (handleStep s e).1 (handleStep_sendClosed_halted s e h)

/-- Counterexample for C2: from the initial pump state, the event "the
hand-off channel reports closed" makes `Consumer.handle` return at line
67 without closing `sendChan`: the pump halts, emits nothing, and the
output sequence is left open — it does not close as the claim states. -/
theorem handle_supervisor_dead_cex :
    validTraceB pumpInit [PEvent.acquireClosed] = true ∧
    (handleRun pumpInit [PEvent.acquireClosed]).1.halted = true ∧
    (handleRun pumpInit [PEvent.acquireClosed]).1.sendClosed = false ∧
    (handleRun pumpInit [PEvent.acquireClosed]).2 = [] := by decide

/-- C2 (amended): if the hand-off point is closed because the supervisor
has exited, the pump halts and produces no further action of any kind
(in particular no further Delivery), but the output sequence is NOT
closed: `sendChan` remains open, so the application observes permanent
silence rather than closure. -/
theorem handle_supervisor_dead (pre post : List PEvent)
    (h : validTraceB pumpInit (pre ++ PEvent.acquireClosed :: post) = true) :
    (handleRun pumpInit (pre ++ PEvent.acquireClosed :: post)).1.halted = true ∧
    (handleRun pumpInit (pre ++ PEvent.acquireClosed :: post)).1.sendClosed = false ∧
    (handleRun pumpInit (pre ++ PEvent.acquireClosed :: post)).2 =
      (handleRun pumpInit pre).2 := by
  rw [validTraceB_append, Bool.and_eq_true] at h
  obtain ⟨hpre, hrest⟩ := h
  simp only [validTraceB, Bool.and_eq_true] at hrest
  obtain ⟨hok, hpost⟩ := hrest
  simp only [eventOkB, Bool.and_eq_true, Bool.not_eq_true'] at hok
  have hinv := handleRun_sendClosed_halted pre pumpInit (by simp [pumpInit])
  have hsc : (handleRun pumpInit pre).1.sendClosed = false := by
    cases hsc2 : (handleRun pumpInit pre).1.sendClosed
    · rfl
    · simp [hinv hsc2] at hok
  have hhalt := handleRun_halted post
    (handleStep (handleRun pumpInit pre).1 PEvent.acquireClosed).1
    (by simp [handleStep]) hpost
  rw [handleRun_append]
  simp only [handleRun, handleStep] at hhalt ⊢
  exact ⟨hhalt.1, by rw [hhalt.2.1]; exact hsc, by simp [hhalt.2.2]⟩

/-- Witness for C2 (amended) at the one-event trace. -/
theorem handle_supervisor_dead_witness :
    (handleRun pumpInit ([] ++ PEvent.acquireClosed :: [])).1.halted = true ∧
    (handleRun pumpInit ([] ++ PEvent.acquireClosed :: [])).1.sendClosed = false ∧
    (handleRun pumpInit ([] ++ PEvent.acquireClosed :: [])).2 =
      (handleRun pumpInit []).2 :=
  handle_supervisor_dead [] [] (by decide)

/-- On a valid trace from a state with `sendChan` still open (and the
`sendClosed → halted` invariant), the number of `close(sendChan)` calls
performed equals 1 exactly when the final state has `sendChan` closed,
and 0 otherwise: `close(sendChan)` can never run twice. -/
theorem handleRun_closeSend_count (tr : List PEvent) :
    ∀ s : PumpState, (s.sendClosed = true → s.halted = true) →
    validTraceB s tr = true → s.sendClosed = false →
    List.count PAction.closeSend (handleRun s tr).2 =
      Bool.toNat (handleRun s tr).1.sendClosed := by
  induction tr with
  | nil => intro s _ _ hsc; simp [handleRun, hsc]
  | cons e es ih =>
    intro s hP hv hsc
    simp only [validTraceB, Bool.and_eq_true] at hv
    obtain ⟨hok, hv2⟩ := hv
    have hP2 := handleStep_sendClosed_halted s e hP
    cases e with
    | pickQuit =>
      have hh := handleRun_halted es (handleStep s PEvent.pickQuit).1
        (by simp [handleStep]) hv2
      simp only [handleStep] at hh
      simp [handleRun, handleStep, hh.2.1, hh.2.2]
    | shutdown =>
      have := ih { s with quitReq := true } (by simpa using hP)
        (by simpa [handleStep] using hv2) (by simpa using hsc)
      simpa [handleRun, handleStep] using this
    | acquireClosed =>
      have := ih { s with halted := true } (by simp)
        (by simpa [handleStep] using hv2) (by simpa using hsc)
      simpa [handleRun, handleStep] using this
    | acquire id ok =>
      cases ok with
      | true =>
        have := ih { s with client := some id } (by simpa using hP)
          (by simpa [handleStep] using hv2) (by simpa using hsc)
        simpa [handleRun, handleStep] using this
      | false =>
        have := ih s hP (by simpa [handleStep] using hv2) hsc
        simpa [handleRun, handleStep] using this
    | deliver d ackOk =>
      cases hc : s.client with
      | none =>
        have := ih s hP (by simpa [handleStep, hc] using hv2) hsc
        simpa [handleRun, handleStep, hc] using this
      | some l =>
        cases ackOk with
        | true =>
          have := ih s hP (by simpa [handleStep, hc] using hv2) hsc
          simpa [handleRun, handleStep, hc] using this
        | false =>
          have := ih { s with client := none } (by simpa using hP)
            (by simpa [handleStep, hc] using hv2) (by simpa using hsc)
          simpa [handleRun, handleStep, hc] using this
    | streamClosed =>
      cases hc : s.client with
      | none =>
        have := ih s hP (by simpa [handleStep, hc] using hv2) hsc
        simpa [handleRun, handleStep, hc] using this
      | some l =>
        have := ih { s with client := none } (by simpa using hP)
          (by simpa [handleStep, hc] using hv2) (by simpa using hsc)
        simpa [handleRun, handleStep, hc] using this

/-- Counterexample for C3: `Shutdown` is invoked (closing `quit`) while
the pump holds a live client, and the Go `select` — which picks among
ready branches without any priority — picks the delivery branch: a
Delivery is acked and forwarded on the output sequence after shutdown was
invoked.  Shutdown does not take precedence over a simultaneously-ready
delivery. -/
theorem handle_shutdown_no_precedence_cex :
    validTraceB pumpInit
      [PEvent.acquire 1 true, PEvent.shutdown, PEvent.deliver 7 true] = true ∧
    (handleRun pumpInit
      [PEvent.acquire 1 true, PEvent.shutdown, PEvent.deliver 7 true]).2 =
      [PAction.ack 1 7 true, PAction.forward 7] := by decide

/-- C3 (amended): once the pump's event race picks the shutdown branch,
the output sequence is closed exactly once and nothing further — in
particular no Delivery — is emitted; but between the `Shutdown` call and
that pick, simultaneously-ready deliveries may still be forwarded, since
the Go `select` gives shutdown no precedence. -/
theorem handle_shutdown_closes_once (pre post : List PEvent)
    (h : validTraceB pumpInit (pre ++ PEvent.pickQuit :: post) = true) :
    (handleRun pumpInit (pre ++ PEvent.pickQuit :: post)).2 =
      (handleRun pumpInit pre).2 ++ [PAction.closeSend] ∧
    List.count PAction.closeSend
      (handleRun pumpInit (pre ++ PEvent.pickQuit :: post)).2 = 1 := by
  rw [validTraceB_append, Bool.and_eq_true] at h
  obtain ⟨hpre, hrest⟩ := h
  simp only [validTraceB, Bool.and_eq_true] at hrest
  obtain ⟨hok, hpost⟩ := hrest
  simp only [eventOkB, Bool.and_eq_true, Bool.not_eq_true'] at hok
  have hinv := handleRun_sendClosed_halted pre pumpInit (by simp [pumpInit])
  have hsc : (handleRun pumpInit pre).1.sendClosed = false := by
    cases hsc2 : (handleRun pumpInit pre).1.sendClosed
    · rfl
    · simp [hinv hsc2] at hok
  have hhalt := handleRun_halted post
    (handleStep (handleRun pumpInit pre).1 PEvent.pickQuit).1
    (by simp [handleStep]) hpost
  have hcount := handleRun_closeSend_count pre pumpInit (by simp [pumpInit])
    hpre (by simp [pumpInit])
  rw [handleRun_append]
  simp only [handleRun, handleStep] at hhalt ⊢
  constructor
  · simp [hhalt.2.2]
  · simp [hhalt.2.2, List.count_append, hcount, hsc]

/-- Witness for C3 (amended): acquire a client, receive the `Shutdown`
call, then take the quit branch. -/
theorem handle_shutdown_closes_once_witness :
    (handleRun pumpInit
      ([PEvent.acquire 1 true, PEvent.shutdown] ++ PEvent.pickQuit :: [])).2 =
      (handleRun pumpInit [PEvent.acquire 1 true, PEvent.shutdown]).2 ++
        [PAction.closeSend] ∧
    List.count PAction.closeSend
      (handleRun pumpInit
        ([PEvent.acquire 1 true, PEvent.shutdown] ++ PEvent.pickQuit :: [])).2 = 1 :=
  handle_shutdown_closes_once [PEvent.acquire 1 true, PEvent.shutdown] [] (by decide)

/-- Shape of the pump's action trace: a concatenation of exactly the
per-step blocks `Consumer.handle` can emit — a lone `client.close()`, an
`Ack` returning success immediately followed by forwarding that same
delivery, an `Ack` returning failure immediately followed by
`client.close()` on that same link, or a lone `close(sendChan)`. -/
inductive ActBlocks : List PAction → Prop
  | nil : ActBlocks []
  | closeLink (l : Nat) (r : List PAction) : ActBlocks r →
      ActBlocks (PAction.closeLink l :: r)
  | ackFwd (l d : Nat) (r : List PAction) : ActBlocks r →
      ActBlocks (PAction.ack l d true :: PAction.forward d :: r)
  | ackFail (l d : Nat) (r : List PAction) : ActBlocks r →
      ActBlocks (PAction.ack l d false :: PAction.closeLink l :: r)
  | closeSend (r : List PAction) : ActBlocks r →
      ActBlocks (PAction.closeSend :: r)

/-- Every pump run emits an action trace of the `ActBlocks` shape. -/
theorem handleRun_ActBlocks (tr : List PEvent) :
    ∀ s : PumpState, ActBlocks (handleRun s tr).2 := by
  induction tr with
  | nil => intro s; simpa [handleRun] using ActBlocks.nil
  | cons e es ih =>
    intro s
    cases e with
    | shutdown => simpa [handleRun, handleStep] using ih (handleStep s PEvent.shutdown).1
    | acquireClosed =>
      simpa [handleRun, handleStep] using ih (handleStep s PEvent.acquireClosed).1
    | acquire id ok =>
      cases ok with
      | true =>
        simpa [handleRun, handleStep] using ih { s with client := some id }
      | false =>
        simpa [handleRun, handleStep] using ActBlocks.closeLink id _ (ih s)
    | deliver d ackOk =>
      cases hc : s.client with
      | none => simpa [handleRun, handleStep, hc] using ih s
      | some l =>
        cases ackOk with
        | true =>
          simpa [handleRun, handleStep, hc] using ActBlocks.ackFwd l d _ (ih s)
        | false =>
          simpa [handleRun, handleStep, hc] using
            ActBlocks.ackFail l d _ (ih { s with client := none })
    | streamClosed =>
      cases hc : s.client with
      | none => simpa [handleRun, handleStep, hc] using ih s
      | some l =>
        simpa [handleRun, handleStep, hc] using
          ActBlocks.closeLink l _ (ih { s with client := none })
    | pickQuit =>
      simpa [handleRun, handleStep] using
        ActBlocks.closeSend _ (ih (handleStep s PEvent.pickQuit).1)

/-- In a trace of `ActBlocks` shape, every `forward` of a delivery is
immediately preceded by an `Ack` of that delivery returning success. -/
theorem ActBlocks_forward_pred {acts : List PAction} (hb : ActBlocks acts) :
    ∀ i d, acts[i]? = some (PAction.forward d) →
      ∃ j l, i = j + 1 ∧ acts[j]? = some (PAction.ack l d true) := by
  induction hb with
  | nil => intro i d h; simp at h
  | closeLink l0 r hr ih =>
    intro i d h
    match i with
    | 0 => simp at h
    | (k+1) =>
      simp only [List.getElem?_cons_succ] at h
      obtain ⟨j, l2, hj, h2⟩ := ih k d h
      exact ⟨j + 1, l2, by omega, by simpa using h2⟩
  | ackFwd l0 d0 r hr ih =>
    intro i d h
    match i with
    | 0 => simp at h
    | 1 =>
      simp only [List.getElem?_cons_succ, List.getElem?_cons_zero] at h
      obtain rfl : d0 = d := by simpa using h
      exact ⟨0, l0, rfl, by simp⟩
    | (k+2) =>
      simp only [List.getElem?_cons_succ] at h
      obtain ⟨j, l2, hj, h2⟩ := ih k d h
      exact ⟨j + 2, l2, by omega, by simpa using h2⟩
  | ackFail l0 d0 r hr ih =>
    intro i d h
    match i with
    | 0 => simp at h
    | 1 => simp at h
    | (k+2) =>
      simp only [List.getElem?_cons_succ] at h
      obtain ⟨j, l2, hj, h2⟩ := ih k d h
      exact ⟨j + 2, l2, by omega, by simpa using h2⟩
  | closeSend r hr ih =>
    intro i d h
    match i with
    | 0 => simp at h
    | (k+1) =>
      simp only [List.getElem?_cons_succ] at h
      obtain ⟨j, l2, hj, h2⟩ := ih k d h
      exact ⟨j + 1, l2, by omega, by simpa using h2⟩

/-- In a trace of `ActBlocks` shape, every `Ack` returning failure is
immediately followed by `client.close()` on the same link — the delivery
is not forwarded and the link is discarded. -/
theorem ActBlocks_ackFail_close {acts : List PAction} (hb : ActBlocks acts) :
    ∀ i l d, acts[i]? = some (PAction.ack l d false) →
      acts[i+1]? = some (PAction.closeLink l) := by
  induction hb with
  | nil => intro i l d h; simp at h
  | closeLink l0 r hr ih =>
    intro i l d h
    match i with
    | 0 => simp at h
    | (k+1) =>
      simp only [List.getElem?_cons_succ] at h
      simpa using ih k l d h
  | ackFwd l0 d0 r hr ih =>
    intro i l d h
    match i with
    | 0 => simp at h
    | 1 => simp at h
    | (k+2) =>
      simp only [List.getElem?_cons_succ] at h
      simpa using ih k l d h
  | ackFail l0 d0 r hr ih =>
    intro i l d h
    match i with
    | 0 =>
      simp only [List.getElem?_cons_zero, Option.some.injEq] at h
      obtain ⟨rfl, rfl, -⟩ : l0 = l ∧ d0 = d ∧ True := by
        cases h; exact ⟨rfl, rfl, trivial⟩
      simp
    | 1 => simp at h
    | (k+2) =>
      simp only [List.getElem?_cons_succ] at h
      simpa using ih k l d h
  | closeSend r hr ih =>
    intro i l d h
    match i with
    | 0 => simp at h
    | (k+1) =>
      simp only [List.getElem?_cons_succ] at h
      simpa using ih k l d h

/-- C4: on every pump trace, (a) a Delivery is forwarded on the output
sequence only immediately after its own acknowledgment call returned
success, and (b) whenever an acknowledgment call fails, the very next
action is closing and discarding the current link — the delivery is not
forwarded. -/
theorem handle_ack_before_forward (tr : List PEvent) (s : PumpState) :
    (∀ i d, (handleRun s tr).2[i]? = some (PAction.forward d) →
      ∃ j l, i = j + 1 ∧ (handleRun s tr).2[j]? = some (PAction.ack l d true)) ∧
    (∀ i l d, (handleRun s tr).2[i]? = some (PAction.ack l d false) →
      (handleRun s tr).2[i+1]? = some (PAction.closeLink l)) :=
  ⟨fun i d h => ActBlocks_forward_pred (handleRun_ActBlocks tr s) i d h,
   fun i l d h => ActBlocks_ackFail_close (handleRun_ActBlocks tr s) i l d h⟩

/-- Witness for C4: on the two-event trace "acquire link 1, deliver
message 5 with successful ack", the forward at position 1 is preceded at
position 0 by its successful ack. -/
theorem handle_ack_before_forward_witness :
    ∃ j l, 1 = j + 1 ∧
      (handleRun pumpInit [PEvent.acquire 1 true, PEvent.deliver 5 true]).2[j]? =
        some (PAction.ack l 5 true) :=
  (handle_ack_before_forward [PEvent.acquire 1 true, PEvent.deliver 5 true]
    pumpInit).1 1 5 (by decide)

/-- Counterexample for C5: shutdown terminates the pump while it holds
live link 1 (acquire, then `Shutdown`, then the quit branch of the
`select`): the run ends still holding the link and never performs
`client.close()` on it — the quit branch (lines 103-105) closes only
`sendChan`. -/
theorem handle_shutdown_leaves_link_open_cex :
    validTraceB pumpInit
      [PEvent.acquire 1 true, PEvent.shutdown, PEvent.pickQuit] = true ∧
    (handleRun pumpInit
      [PEvent.acquire 1 true, PEvent.shutdown, PEvent.pickQuit]).1.client = some 1 ∧
    PAction.closeLink 1 ∉
      (handleRun pumpInit
        [PEvent.acquire 1 true, PEvent.shutdown, PEvent.pickQuit]).2 := by decide

/-- C5 (amended): links discarded on observed errors are explicitly
closed, in all three error cases — (a) when the pump holds link `l` and
a step makes it drop the link (delivery-stream closure, acknowledgment
failure), that step performs `client.close()` on `l`; (b) on
consumption-start failure (a link `l` is acquired through the hand-off
and `Consume` fails, the event `acquire l false`), that step performs
`client.close()` on `l` (lines 80-85); but (c) on the shutdown branch
the pump closes only the output sequence and halts still holding the
link, without closing it. -/
theorem handle_link_close_discipline (s : PumpState) (l : Nat) (e : PEvent)
    (hok : eventOkB s e = true) :
    (s.client = some l → (handleStep s e).1.client = none →
      PAction.closeLink l ∈ (handleStep s e).2) ∧
    (e = PEvent.acquire l false →
      PAction.closeLink l ∈ (handleStep s e).2) ∧
    (e = PEvent.pickQuit → s.client = some l →
      (handleStep s e).1.client = some l ∧
      (handleStep s e).2 = [PAction.closeSend]) := by
  cases e with
  | shutdown =>
    exact ⟨fun hc hn => by simp [handleStep, hc] at hn, by simp, by simp⟩
  | acquireClosed =>
    exact ⟨fun hc hn => by simp [handleStep, hc] at hn, by simp, by simp⟩
  | acquire id ok =>
    refine ⟨?_, ?_, by simp⟩
    · intro hc
      simp [eventOkB, hc] at hok
    · intro he
      injection he with h1 h2
      subst h1; subst h2
      simp [handleStep]
  | deliver d ackOk =>
    refine ⟨?_, by simp, by simp⟩
    intro hc hn
    cases ackOk <;> simp [handleStep, hc] at hn ⊢
  | streamClosed =>
    refine ⟨?_, by simp, by simp⟩
    intro hc _
    simp [handleStep, hc]
  | pickQuit =>
    refine ⟨?_, by simp, ?_⟩
    · intro hc hn
      simp [handleStep, hc] at hn
    · intro _ hc
      simp [handleStep, hc]

/-- Witness for C5 (amended) at the consumption-start-failure event from
the initial pump state: link 1 is acquired, `Consume` fails, and the
step explicitly closes link 1. -/
theorem handle_link_close_discipline_witness :
    (pumpInit.client = some 1 →
      (handleStep pumpInit (PEvent.acquire 1 false)).1.client = none →
      PAction.closeLink 1 ∈ (handleStep pumpInit (PEvent.acquire 1 false)).2) ∧
    (PEvent.acquire 1 false = PEvent.acquire 1 false →
      PAction.closeLink 1 ∈ (handleStep pumpInit (PEvent.acquire 1 false)).2) ∧
    (PEvent.acquire 1 false = PEvent.pickQuit → pumpInit.client = some 1 →
      (handleStep pumpInit (PEvent.acquire 1 false)).1.client = some 1 ∧
      (handleStep pumpInit (PEvent.acquire 1 false)).2 = [PAction.closeSend]) :=
  handle_link_close_discipline pumpInit 1 (PEvent.acquire 1 false) (by decide)

/-- C7: consumption-start failure, delivery-stream closure and
acknowledgment failure are each recoverable: the step closes the current
link, returns the pump to the no-link state without halting it, and a
fresh hand-off request (an `acquire` event) is possible right after. -/
theorem handle_recoverable_failures (s s0 : PumpState) (l d id : Nat) (ok : Bool)
    (hh : s.halted = false) (hc : s.client = some l)
    (h0 : s0.halted = false) (h0c : s0.client = none) :
    (handleStep s PEvent.streamClosed =
        ({ s with client := none }, [PAction.closeLink l]) ∧
      (handleStep s PEvent.streamClosed).1.halted = false ∧
      eventOkB (handleStep s PEvent.streamClosed).1 (PEvent.acquire id ok) = true) ∧
    (handleStep s (PEvent.deliver d false) =
        ({ s with client := none }, [PAction.ack l d false, PAction.closeLink l]) ∧
      (handleStep s (PEvent.deliver d false)).1.halted = false ∧
      eventOkB (handleStep s (PEvent.deliver d false)).1 (PEvent.acquire id ok) = true) ∧
    (handleStep s0 (PEvent.acquire id false) = (s0, [PAction.closeLink id]) ∧
      (handleStep s0 (PEvent.acquire id false)).1.halted = false ∧
      eventOkB (handleStep s0 (PEvent.acquire id false)).1 (PEvent.acquire id ok) = true) := by
  refine ⟨⟨?_, ?_, ?_⟩, ⟨?_, ?_, ?_⟩, ⟨?_, ?_, ?_⟩⟩ <;>
    simp [handleStep, eventOkB, hc, hh, h0, h0c]

/-- Witness for C7: a consuming pump on link 1 and a fresh pump. -/
theorem handle_recoverable_failures_witness :
    (handleStep ⟨some 1, false, false, false⟩ PEvent.streamClosed =
        ({ (⟨some 1, false, false, false⟩ : PumpState) with client := none },
         [PAction.closeLink 1]) ∧
      (handleStep ⟨some 1, false, false, false⟩ PEvent.streamClosed).1.halted = false ∧
      eventOkB (handleStep ⟨some 1, false, false, false⟩ PEvent.streamClosed).1
        (PEvent.acquire 3 true) = true) ∧
    (handleStep ⟨some 1, false, false, false⟩ (PEvent.deliver 2 false) =
        ({ (⟨some 1, false, false, false⟩ : PumpState) with client := none },
         [PAction.ack 1 2 false, PAction.closeLink 1]) ∧
      (handleStep ⟨some 1, false, false, false⟩ (PEvent.deliver 2 false)).1.halted = false ∧
      eventOkB (handleStep ⟨some 1, false, false, false⟩ (PEvent.deliver 2 false)).1
        (PEvent.acquire 3 true) = true) ∧
    (handleStep pumpInit (PEvent.acquire 3 false) = (pumpInit, [PAction.closeLink 3]) ∧
      (handleStep pumpInit (PEvent.acquire 3 false)).1.halted = false ∧
      eventOkB (handleStep pumpInit (PEvent.acquire 3 false)).1
        (PEvent.acquire 3 true) = true) :=
  handle_recoverable_failures ⟨some 1, false, false, false⟩ pumpInit 1 2 3 true
    rfl rfl rfl rfl

/-- C6: any supervisor step failure — dial, channel open, exchange
declaration, queue declaration or queue binding — ends that supervisor
run: the iteration does not continue, the hand-off channels are closed,
and whatever outcomes would follow are unreachable (the run is unchanged
by any continuation); no retry wraps the open/declare sequence. -/
theorem redialConsumer_fatal (con : Consumer) (pre post : List ROutcome) (o : ROutcome)
    (hpre : ∀ p ∈ pre, isHandedOff p = true) (ho : isFatalStep o = true) :
    redialConsumer con (pre ++ o :: post) =
      redialConsumer con pre ++ (redialConsumerIter con o).1 ++
        [SupAction.closeHandoff] ∧
    (redialConsumerIter con o).2 = false := by
  have h2 : (redialConsumerIter con o).2 = false := by
    cases o <;> simp [isFatalStep] at ho <;> simp [redialConsumerIter]
  refine ⟨?_, h2⟩
  induction pre with
  | nil => simp [redialConsumer, h2]
  | cons p ps ih =>
    have hp := hpre p (by simp)
    have hps : ∀ q ∈ ps, isHandedOff q = true := fun q hq => hpre q (by simp [hq])
    cases p <;> simp [isHandedOff] at hp
    case handedOff m c =>
      simp [redialConsumer, redialConsumerIter, ih hps]

/-- A sample configuration for concrete evaluation. -/
def sampleCon : Consumer :=
  { amqpURI := "amqp://localhost:5672/"
    tls := none
    exchange := "events"
    exchangeType := "topic"
    queue := "orders"
    routingKey := "order.key"
    ctag := "ctag-1" }

/-- Witness for C6: after one successful hand-off, a dial failure ends
the run; the later outcome in the list is never reached. -/
theorem redialConsumer_fatal_witness :
    redialConsumer sampleCon
        ([ROutcome.handedOff 0 0] ++ ROutcome.dialFail :: [ROutcome.handedOff 1 1]) =
      redialConsumer sampleCon [ROutcome.handedOff 0 0] ++
        (redialConsumerIter sampleCon ROutcome.dialFail).1 ++
        [SupAction.closeHandoff] ∧
    (redialConsumerIter sampleCon ROutcome.dialFail).2 = false :=
  redialConsumer_fatal sampleCon [ROutcome.handedOff 0 0] [ROutcome.handedOff 1 1]
    ROutcome.dialFail (by decide) (by decide)

/-- C8: at-most-one live link.  On the supervisor side, no run of the
`redialConsumer` loop ever performs a second `dial` (the start of
building the next client) before the previous built client has been
delivered through the rendezvous; on the pump side, the pump's `client`
is a single nullable field, so it holds at most one link at any
instant. -/
theorem at_most_one_live_link (con : Consumer) (os : List ROutcome) (s : PumpState) :
    noSecondDial false (redialConsumer con os) = true ∧ pumpHeldLinks s ≤ 1 := by
  constructor
  · induction os with
    | nil => simp [redialConsumer, noSecondDial]
    | cons o os ih =>
      cases o <;> simp [redialConsumer, redialConsumerIter, noSecondDial, ih]
  · cases hc : s.client <;> simp [pumpHeldLinks, hc]
